/-
Verification of the Momentum-Markets pricing/simulation engine
(src/bet_calculator.py, src/helper.py) against its natural-language
specification.

The Python floats of the source are modelled as real numbers; `math.sqrt`
becomes `Real.sqrt`.  A Python division that can raise `ZeroDivisionError`
on a reachable input is modelled by an `Option`-valued function that
returns `none` exactly when such a denominator is zero; divisions whose
denominator is the simulated market cap are left as plain real division
because the simulated cap starts at the 100,000 baseline and never
decreases on the inputs any theorem below speaks about.
-/

import Mathlib

noncomputable section

/-- Source constant `INITIAL_MC = 100_000` (bet_calculator.py line 9). -/
def INITIAL_MC : ℝ := 100000

/-- Source constant `TAX_RATE = 0.05` (line 10). -/
def TAX_RATE : ℝ := 0.05

/-- Source constant `BET_POOL_PERCENTAGE = 1 - TAX_RATE` (line 11). -/
def BET_POOL_PERCENTAGE : ℝ := 1 - TAX_RATE

/-- Source constant `INITIAL_LIQUIDITY = 10_000` (line 12). -/
def INITIAL_LIQUIDITY : ℝ := 10000

/-- `totalliquidity` (bet_calculator.py lines 17-18):
`100000 * math.sqrt(market_cap / 100000)`. -/
def totalliquidity (market_cap : ℝ) : ℝ :=
  100000 * Real.sqrt (market_cap / 100000)

/-- `availableliquidity` (lines 23-26): zero at or below the 100,000
baseline, otherwise total liquidity minus 10,000. -/
def availableliquidity (market_cap : ℝ) : ℝ :=
  if market_cap ≤ 100000 then 0 else totalliquidity market_cap - 10000

/-- `calculate_new_market_cap` (lines 31-35):
`current_mc + post_tax_buy * (20 * sqrt (current_mc / 100000))`. -/
def calculate_new_market_cap (current_mc post_tax_buy : ℝ) : ℝ :=
  current_mc + post_tax_buy * (20 * Real.sqrt (current_mc / 100000))

/-- The mutable loop state of `simulate_market_cap_growth` (lines 46-56).
`ghost_all_values` is specification instrumentation only: it records the
`buy_value_at_close` of every synthetic standard buy ever executed and is
never cleared, whereas `all_buy_values_at_close` is the source's list,
which line 62 clears.  The source's sampled `simulation_data` rows (lines
70-79) are a reporting artifact no claim refers to and are not modelled. -/
structure SimState where
  current_mc : ℝ
  buy_number : ℕ
  user_buy_value_at_close : ℝ
  user_buy_included : Bool
  all_buy_values_at_close : List ℝ
  ghost_all_values : List ℝ

/-- One iteration of the `while` body (lines 59-82): the user-entry check
and list clearing of lines 59-62, then one standard buy.  Note the source
never assigns `user_buy_included = True`, and this embedding faithfully
keeps the flag unchanged. -/
def simStep (final_mc user_post_tax_buy post_tax_standard_buy user_buy_mc_value : ℝ)
    (st : SimState) : SimState :=
  let st1 :=
    if st.user_buy_included = false ∧ user_buy_mc_value ≤ st.current_mc then
      { st with
          user_buy_value_at_close := user_post_tax_buy * final_mc / st.current_mc,
          all_buy_values_at_close := [] }
    else st
  let opening_mc := st1.current_mc
  let new_mc := calculate_new_market_cap opening_mc post_tax_standard_buy
  let buy_value_at_close := post_tax_standard_buy * final_mc / opening_mc
  { st1 with
      current_mc := new_mc,
      buy_number := st1.buy_number + 1,
      all_buy_values_at_close := st1.all_buy_values_at_close ++ [buy_value_at_close],
      ghost_all_values := st1.ghost_all_values ++ [buy_value_at_close] }

/-- The `while current_mc < final_mc and buy_number <= max_buys` loop
(line 58, `max_buys = 10000`), as fuel recursion.  The fuel 10001 used
below strictly exceeds the number of iterations the `buy_number` bound
permits, so the fuel never cuts the loop short and the recursion is an
exact model of the source loop. -/
def simLoop (final_mc user_post_tax_buy post_tax_standard_buy user_buy_mc_value : ℝ) :
    ℕ → SimState → SimState
  | 0, st => st
  | n + 1, st =>
    if st.current_mc < final_mc ∧ st.buy_number ≤ 10000 then
      simLoop final_mc user_post_tax_buy post_tax_standard_buy user_buy_mc_value n
        (simStep final_mc user_post_tax_buy post_tax_standard_buy user_buy_mc_value st)
    else st

/-- The state right before the loop (lines 46-56). -/
def initSimState : SimState :=
  { current_mc := INITIAL_MC, buy_number := 1, user_buy_value_at_close := 0,
    user_buy_included := false, all_buy_values_at_close := [], ghost_all_values := [] }

/-- The loop of `simulate_market_cap_growth` run to completion on the
derived quantities of lines 47-49: the user entry cap scaled by 1000, and
the post-tax buy sizes. -/
def simRun (final_mc user_bet_amount user_buy_mc standard_buy_size : ℝ) : SimState :=
  simLoop final_mc (user_bet_amount * BET_POOL_PERCENTAGE)
    (standard_buy_size * BET_POOL_PERCENTAGE) (user_buy_mc * 1000) 10001 initSimState

/-- What `simulate_market_cap_growth` returns (line 100) plus the ghost
list of every executed standard buy's value at close. -/
structure SimResult where
  total_sum_value : ℝ
  user_buy_value_at_close : ℝ
  user_rewards_percentage : ℝ
  values_at_close : List ℝ
  executed_buys : List ℝ

/-- `simulate_market_cap_growth` (lines 40-100).  The two divisions that
can raise `ZeroDivisionError` in Python — line 89's division by
`min(user_buy_mc_value, final_mc)` and line 93's division by
`total_sum_value` — are modelled by returning `none` when the denominator
is zero. -/
def simulate_market_cap_growth (final_mc user_bet_amount user_buy_mc : ℝ)
    (standard_buy_size : ℝ := 100) : Option SimResult :=
  let user_buy_mc_value := user_buy_mc * 1000
  let user_post_tax_buy := user_bet_amount * BET_POOL_PERCENTAGE
  let stF := simRun final_mc user_bet_amount user_buy_mc standard_buy_size
  if stF.user_buy_included = false ∧ min user_buy_mc_value final_mc = 0 then none
  else
    let user_buy_value_at_close :=
      if stF.user_buy_included = false then
        user_post_tax_buy * final_mc / min user_buy_mc_value final_mc
      else stF.user_buy_value_at_close
    let all_values :=
      if stF.user_buy_included = false then
        stF.all_buy_values_at_close ++ [user_buy_value_at_close]
      else stF.all_buy_values_at_close
    if all_values.sum = 0 then none
    else some
      { total_sum_value := all_values.sum,
        user_buy_value_at_close := user_buy_value_at_close,
        user_rewards_percentage := user_buy_value_at_close / all_values.sum * 100,
        values_at_close := all_values,
        executed_buys := stF.ghost_all_values }

/- Basic facts about the constants and the loop equations. -/

theorem BPP_eq : BET_POOL_PERCENTAGE = 0.95 := by
  unfold BET_POOL_PERCENTAGE TAX_RATE; norm_num

theorem simLoop_zero (f a b c : ℝ) (st : SimState) : simLoop f a b c 0 st = st := rfl

theorem simLoop_succ (f a b c : ℝ) (n : ℕ) (st : SimState) :
    simLoop f a b c (n + 1) st =
      if st.current_mc < f ∧ st.buy_number ≤ 10000 then
        simLoop f a b c n (simStep f a b c st)
      else st := rfl

theorem simStep_flag (f a b c : ℝ) (st : SimState) :
    (simStep f a b c st).user_buy_included = st.user_buy_included := by
  unfold simStep
  split <;> rfl

theorem simLoop_flag (f a b c : ℝ) (n : ℕ) (st : SimState) :
    (simLoop f a b c n st).user_buy_included = st.user_buy_included := by
  induction n generalizing st with
  | zero => rfl
  | succ n ih =>
    rw [simLoop_succ]
    split
    · rw [ih, simStep_flag]
    · rfl

/-- What `calculate_rewards` returns (bet_calculator.py lines 141-151);
the sampled `simulationData` rows are not modelled. -/
structure RewardResult where
  taxPaid : ℝ
  userPostTaxBet : ℝ
  userBuyValueAtClose : ℝ
  userRewardsPercentage : ℝ
  totalSumValue : ℝ
  shareOfLosingTeamLiquidity : ℝ
  estimatedSSBReward : ℝ
  dollarIncrease : ℝ

/-- `calculate_rewards` (lines 105-151): runs the simulator on the winning
side's final cap (standard buy size left at its default 100) and converts
the share into dollars of the losing side's available liquidity.
`none` propagates a `ZeroDivisionError` of the simulator. -/
def calculate_rewards (user_bet_amount user_buy_mc team1_final_mc team2_final_mc : ℝ)
    (winning_team_id : ℤ) : Option RewardResult :=
  let winning_team_final_mc := if winning_team_id = 1 then team1_final_mc else team2_final_mc
  let user_tax_paid := user_bet_amount * TAX_RATE
  match simulate_market_cap_growth winning_team_final_mc user_bet_amount user_buy_mc with
  | none => none
  | some sim =>
    let team1_available_liquidity := availableliquidity team1_final_mc
    let team2_available_liquidity := availableliquidity team2_final_mc
    let losing_team_liquidity :=
      if winning_team_id = 1 then team2_available_liquidity else team1_available_liquidity
    let percentage_value_in_dollars :=
      sim.user_rewards_percentage / 100 * losing_team_liquidity
    let user_post_tax_bet := user_bet_amount * BET_POOL_PERCENTAGE
    let dollar_increase := percentage_value_in_dollars - user_post_tax_bet
    some
      { taxPaid := user_tax_paid,
        userPostTaxBet := user_post_tax_bet,
        userBuyValueAtClose := sim.user_buy_value_at_close,
        userRewardsPercentage := sim.user_rewards_percentage,
        totalSumValue := sim.total_sum_value,
        shareOfLosingTeamLiquidity := percentage_value_in_dollars,
        estimatedSSBReward := user_post_tax_bet + percentage_value_in_dollars,
        dollarIncrease := dollar_increase }

/-- A side of an event (models.py `Team`: only the fields `process_bet_event`
reads or writes are kept; `name`/`description` are logging-only). -/
structure TeamS where
  id : ℤ
  market_cap : ℝ

/-- An event (models.py `Event`: the fields `process_bet_event` touches). -/
structure EventS where
  id : ℤ
  teams : List TeamS
  total_bet_amount : ℝ

/-- Replace the first element satisfying `p` by its image under `f`
(Python mutates the object `next(...)` found and writes it back at the
first matching index, helper.py lines 184-215). -/
def update_first {α : Type} (p : α → Bool) (f : α → α) : List α → List α
  | [] => []
  | x :: xs => if p x then f x :: xs else x :: update_first p f xs

/-- `process_bet_event` (helper.py lines 181-244) restricted to the event
state: an unknown event id or team id leaves the state unchanged (lines
184-193); otherwise the matched team's market cap is advanced through
`calculate_new_market_cap` with the net bet amount (lines 196-200) and the
event's `total_bet_amount` grows by the gross amount (line 209).  The user
ledger and the `finalized_team_market_caps` cache it also maintains do not
feed back into any market cap and are not modelled. -/
def process_bet_event (events : List EventS) (event_id team_id : ℤ)
    (amount tax_amount net_bet_amount : ℝ) : List EventS :=
  match events.find? (fun e => e.id == event_id) with
  | none => events
  | some event_obj =>
    match event_obj.teams.find? (fun t => t.id == team_id) with
    | none => events
    | some _ =>
      update_first (fun e => e.id == event_id)
        (fun e =>
          { e with
              teams := update_first (fun t => t.id == team_id)
                (fun t =>
                  { t with market_cap := calculate_new_market_cap t.market_cap net_bet_amount })
                e.teams,
              total_bet_amount := e.total_bet_amount + amount })
        events

/-- One raw `BetPlaced` event as `process_bet_event` consumes it. -/
structure BetEv where
  event_id : ℤ
  team_id : ℤ
  amount : ℝ
  tax_amount : ℝ
  net_bet_amount : ℝ

/-- Chronological processing of a sequence of bet events (helper.py lines
169-171 and 297-306). -/
def process_bets (events : List EventS) (bets : List BetEv) : List EventS :=
  bets.foldl
    (fun es b => process_bet_event es b.event_id b.team_id b.amount b.tax_amount b.net_bet_amount)
    events

/-- The per-event lists of team market caps, the quantity claims C9 tracks. -/
def eventCaps (events : List EventS) : List (List ℝ) :=
  events.map (fun e => e.teams.map TeamS.market_cap)

/-- C6: `availableLiquidity` is exactly zero at or below the 100,000
baseline, equals `totalLiquidity − 10,000` above it, and is never negative
on a non-negative cap. -/
theorem availableliquidity_spec (c : ℝ) :
    (c ≤ 100000 → availableliquidity c = 0) ∧
    (100000 < c → availableliquidity c = totalliquidity c - 10000) ∧
    (0 ≤ c → 0 ≤ availableliquidity c) := by
  refine ⟨fun h => by simp [availableliquidity, h], fun h => by simp [availableliquidity, not_le.mpr h], ?_⟩
  intro _
  unfold availableliquidity
  split
  · exact le_refl 0
  · rename_i h
    push_neg at h
    have h1 : (1 : ℝ) ≤ c / 100000 := by linarith [h]
    have h2 : Real.sqrt 1 ≤ Real.sqrt (c / 100000) := Real.sqrt_le_sqrt h1
    rw [Real.sqrt_one] at h2
    unfold totalliquidity
    nlinarith [h2]

/-- Witness for C6 at the concrete caps 50,000 and 200,000. -/
theorem availableliquidity_spec_witness :
    availableliquidity 50000 = 0 ∧ 0 ≤ availableliquidity 200000 :=
  ⟨(availableliquidity_spec 50000).1 (by norm_num),
   (availableliquidity_spec 200000).2.2 (by norm_num)⟩

/-- C7: on a positive cap, a positive post-tax stake strictly raises the
market cap, and `calculate_new_market_cap` is strictly monotone in the
stake. -/
theorem newMarketCap_growth_monotone (c : ℝ) (hc : 0 < c) :
    (∀ s : ℝ, 0 < s → c < calculate_new_market_cap c s) ∧
    (∀ s1 s2 : ℝ, s1 < s2 → calculate_new_market_cap c s1 < calculate_new_market_cap c s2) := by
  have hfac : 0 < 20 * Real.sqrt (c / 100000) := by
    have : 0 < Real.sqrt (c / 100000) := Real.sqrt_pos.mpr (by positivity)
    linarith
  constructor
  · intro s hs
    unfold calculate_new_market_cap
    nlinarith
  · intro s1 s2 h
    unfold calculate_new_market_cap
    have := mul_lt_mul_of_pos_right h hfac
    linarith

/-- Witness for C7 at cap 100,000 with stakes 1 and 2. -/
theorem newMarketCap_growth_monotone_witness :
    100000 < calculate_new_market_cap 100000 1 ∧
    calculate_new_market_cap 100000 1 < calculate_new_market_cap 100000 2 :=
  ⟨(newMarketCap_growth_monotone 100000 (by norm_num)).1 1 (by norm_num),
   (newMarketCap_growth_monotone 100000 (by norm_num)).2 1 2 (by norm_num)⟩

/- Invariants of the simulation loop: the simulated cap never falls below
the baseline, every recorded value at close is positive, and the
user-inclusion flag stays false (the source never sets it). -/

theorem simStep_good (f a b c : ℝ) (hf : 0 < f) (hb : 0 < b) (st : SimState)
    (h1 : 100000 ≤ st.current_mc)
    (h2 : ∀ v ∈ st.all_buy_values_at_close, 0 < v)
    (h3 : ∀ v ∈ st.ghost_all_values, 0 < v) :
    100000 ≤ (simStep f a b c st).current_mc ∧
    (∀ v ∈ (simStep f a b c st).all_buy_values_at_close, 0 < v) ∧
    (∀ v ∈ (simStep f a b c st).ghost_all_values, 0 < v) := by
  have hmc : 0 < st.current_mc := lt_of_lt_of_le (by norm_num) h1
  have hval : 0 < b * f / st.current_mc := div_pos (mul_pos hb hf) hmc
  have hstep : 0 ≤ b * (20 * Real.sqrt (st.current_mc / 100000)) :=
    mul_nonneg hb.le (by positivity)
  unfold simStep
  split_ifs with h
  · refine ⟨?_, ?_, ?_⟩
    · unfold calculate_new_market_cap
      dsimp only
      linarith
    · intro v hv
      simp only [List.nil_append, List.mem_singleton] at hv
      subst hv; exact hval
    · intro v hv
      rcases List.mem_append.mp hv with hv | hv
      · exact h3 v hv
      · rw [List.mem_singleton] at hv; subst hv; exact hval
  · refine ⟨?_, ?_, ?_⟩
    · unfold calculate_new_market_cap
      dsimp only
      linarith
    · intro v hv
      rcases List.mem_append.mp hv with hv | hv
      · exact h2 v hv
      · rw [List.mem_singleton] at hv; subst hv; exact hval
    · intro v hv
      rcases List.mem_append.mp hv with hv | hv
      · exact h3 v hv
      · rw [List.mem_singleton] at hv; subst hv; exact hval

theorem simLoop_good (f a b c : ℝ) (hf : 0 < f) (hb : 0 < b) (n : ℕ) (st : SimState)
    (h1 : 100000 ≤ st.current_mc)
    (h2 : ∀ v ∈ st.all_buy_values_at_close, 0 < v)
    (h3 : ∀ v ∈ st.ghost_all_values, 0 < v) :
    100000 ≤ (simLoop f a b c n st).current_mc ∧
    (∀ v ∈ (simLoop f a b c n st).all_buy_values_at_close, 0 < v) ∧
    (∀ v ∈ (simLoop f a b c n st).ghost_all_values, 0 < v) := by
  induction n generalizing st with
  | zero => exact ⟨h1, h2, h3⟩
  | succ n ih =>
    rw [simLoop_succ]
    split
    · obtain ⟨g1, g2, g3⟩ := simStep_good f a b c hf hb st h1 h2 h3
      exact ih _ g1 g2 g3
    · exact ⟨h1, h2, h3⟩

theorem simRun_flag_false (f u m s : ℝ) : (simRun f u m s).user_buy_included = false := by
  unfold simRun
  rw [simLoop_flag]
  rfl

theorem simRun_good (f u m s : ℝ) (hf : 0 < f) (hs : 0 < s * BET_POOL_PERCENTAGE) :
    100000 ≤ (simRun f u m s).current_mc ∧
    (∀ v ∈ (simRun f u m s).all_buy_values_at_close, 0 < v) ∧
    (∀ v ∈ (simRun f u m s).ghost_all_values, 0 < v) := by
  unfold simRun
  exact simLoop_good _ _ _ _ hf hs _ initSimState
    (by unfold initSimState INITIAL_MC; norm_num)
    (by intro v hv; simp [initSimState] at hv)
    (by intro v hv; simp [initSimState] at hv)

theorem simLoop_id_or_ne (f a b c : ℝ) (n : ℕ) (st : SimState) :
    simLoop f a b c n st = st ∨
      ((simLoop f a b c n st).all_buy_values_at_close ≠ [] ∧
       (simLoop f a b c n st).ghost_all_values ≠ []) := by
  induction n generalizing st with
  | zero => exact Or.inl rfl
  | succ n ih =>
    rw [simLoop_succ]
    split
    · rcases ih (simStep f a b c st) with h | h
      · right
        rw [h]
        constructor <;> · unfold simStep; split <;> simp
      · exact Or.inr h
    · exact Or.inl rfl

/-- When the target cap is at or below the baseline the `while` condition
fails immediately and the loop body never runs (spec §4.2 edge case). -/
theorem simRun_no_loop (f u m s : ℝ) (h : f ≤ 100000) : simRun f u m s = initSimState := by
  unfold simRun
  rw [show (10001 : ℕ) = 10000 + 1 from rfl, simLoop_succ, if_neg]
  intro hcond
  have : INITIAL_MC < f := hcond.1
  unfold INITIAL_MC at this
  linarith

/-- When the target cap is above the baseline at least one standard buy
executes, so both value lists are nonempty. -/
theorem simRun_ne_nil (f u m s : ℝ) (h : 100000 < f) :
    (simRun f u m s).all_buy_values_at_close ≠ [] ∧
    (simRun f u m s).ghost_all_values ≠ [] := by
  unfold simRun
  rw [show (10001 : ℕ) = 10000 + 1 from rfl, simLoop_succ, if_pos]
  · rcases simLoop_id_or_ne f (u * BET_POOL_PERCENTAGE) (s * BET_POOL_PERCENTAGE) (m * 1000)
      10000 (simStep f (u * BET_POOL_PERCENTAGE) (s * BET_POOL_PERCENTAGE) (m * 1000)
        initSimState) with heq | hne
    · rw [heq]
      constructor <;> · unfold simStep; split <;> simp
    · exact hne
  · exact ⟨by unfold initSimState INITIAL_MC; dsimp only; linarith,
      by unfold initSimState; norm_num⟩

theorem simRun_id_nil (f u m s : ℝ) (h : f ≤ 100000) :
    (simRun f u m s).all_buy_values_at_close = [] ∧ (simRun f u m s).ghost_all_values = [] := by
  rw [simRun_no_loop f u m s h]
  exact ⟨rfl, rfl⟩

/-- Evaluation of `simulate_market_cap_growth` (default standard buy size)
when neither guarded denominator is zero: the returned record spelled out.
Since the source never sets `user_buy_included`, the user's value at close
is always the post-loop formula of line 89 and is always appended. -/
theorem simulate_default_eval (final stake entry : ℝ)
    (hmin : min (entry * 1000) final ≠ 0)
    (hsum : (simRun final stake entry 100).all_buy_values_at_close.sum
        + stake * BET_POOL_PERCENTAGE * final / min (entry * 1000) final ≠ 0) :
    simulate_market_cap_growth final stake entry 100 = some
      { total_sum_value := (simRun final stake entry 100).all_buy_values_at_close.sum
          + stake * BET_POOL_PERCENTAGE * final / min (entry * 1000) final,
        user_buy_value_at_close := stake * BET_POOL_PERCENTAGE * final / min (entry * 1000) final,
        user_rewards_percentage :=
          stake * BET_POOL_PERCENTAGE * final / min (entry * 1000) final /
            ((simRun final stake entry 100).all_buy_values_at_close.sum
              + stake * BET_POOL_PERCENTAGE * final / min (entry * 1000) final) * 100,
        values_at_close := (simRun final stake entry 100).all_buy_values_at_close
          ++ [stake * BET_POOL_PERCENTAGE * final / min (entry * 1000) final],
        executed_buys := (simRun final stake entry 100).ghost_all_values } := by
  simp only [simulate_market_cap_growth]
  rw [if_neg (fun hc => hmin hc.2)]
  rw [if_pos (simRun_flag_false final stake entry 100)]
  rw [if_pos (simRun_flag_false final stake entry 100)]
  simp only [List.sum_append, List.sum_cons, List.sum_nil, add_zero]
  rw [if_neg hsum]

/-- C10: the line 93 division `userValueAtClose / totalValue` never hits a
zero divisor when `userStake`, `userEntryCap` and `finalCap` are all
positive (the computation returns a value, `none` standing for a raised
`ZeroDivisionError`); dropping the precondition makes the error branch
reachable: a zero stake at the baseline final cap and a zero entry cap
each produce a division by zero. -/
theorem sharePercent_division_safe :
    (∀ stake entry final : ℝ, 0 < stake → 0 < entry → 0 < final →
        (simulate_market_cap_growth final stake entry 100).isSome = true) ∧
    simulate_market_cap_growth 100000 0 100 100 = none ∧
    simulate_market_cap_growth 100000 100 0 100 = none := by
  refine ⟨?_, ?_, ?_⟩
  · intro stake entry final hs he hf
    have hBPP : (0 : ℝ) < BET_POOL_PERCENTAGE := by rw [BPP_eq]; norm_num
    have hmin : 0 < min (entry * 1000) final := lt_min (by nlinarith) hf
    have hU : 0 < stake * BET_POOL_PERCENTAGE * final / min (entry * 1000) final :=
      div_pos (mul_pos (mul_pos hs hBPP) hf) hmin
    have hgood := simRun_good final stake entry 100 hf (by rw [BPP_eq]; norm_num)
    have hS : 0 ≤ (simRun final stake entry 100).all_buy_values_at_close.sum :=
      List.sum_nonneg (fun v hv => (hgood.2.1 v hv).le)
    rw [simulate_default_eval final stake entry (ne_of_gt hmin)
      (ne_of_gt (add_pos_of_nonneg_of_pos hS hU))]
    rfl
  · have hrun : simRun 100000 0 100 100 = initSimState :=
      simRun_no_loop 100000 0 100 100 (le_refl 100000)
    simp only [simulate_market_cap_growth, hrun, initSimState]
    rw [if_neg]
    · simp
    · intro hc
      have h2 := hc.2
      rw [show (100 : ℝ) * 1000 = 100000 by norm_num, min_self] at h2
      norm_num at h2
  · simp only [simulate_market_cap_growth]
    rw [if_pos]
    exact ⟨simRun_flag_false 100000 100 0 100, by rw [zero_mul]; exact min_eq_left (by norm_num)⟩

/-- Witness for C10: the simulator returns a value at the concrete input
stake 100, entry cap 100 (scaled: 100,000), final cap 100,000. -/
theorem sharePercent_division_safe_witness :
    (simulate_market_cap_growth 100000 100 100 100).isSome = true :=
  sharePercent_division_safe.1 100 100 100000 (by norm_num) (by norm_num) (by norm_num)

/-- C5: under positive stake, positive entry cap and a final cap at or
above the baseline, the returned `sharePercent` lies in (0, 100], and it
equals 100 exactly when no synthetic standard buy executed, which holds
exactly when the final cap equals the 100,000 baseline. -/
theorem sharePercent_unit_interval (stake entry final : ℝ)
    (hs : 0 < stake) (he : 0 < entry) (hf : 100000 ≤ final) :
    ∃ r : SimResult, simulate_market_cap_growth final stake entry 100 = some r ∧
      0 < r.user_rewards_percentage ∧ r.user_rewards_percentage ≤ 100 ∧
      (r.user_rewards_percentage = 100 ↔ r.executed_buys = []) ∧
      (r.executed_buys = [] ↔ final = 100000) := by
  have hf0 : (0 : ℝ) < final := lt_of_lt_of_le (by norm_num) hf
  have hBPP : (0 : ℝ) < BET_POOL_PERCENTAGE := by rw [BPP_eq]; norm_num
  have hmin : 0 < min (entry * 1000) final := lt_min (by nlinarith) hf0
  set U := stake * BET_POOL_PERCENTAGE * final / min (entry * 1000) final with hUdef
  have hU : 0 < U := div_pos (mul_pos (mul_pos hs hBPP) hf0) hmin
  have hgood := simRun_good final stake entry 100 hf0 (by rw [BPP_eq]; norm_num)
  set S := (simRun final stake entry 100).all_buy_values_at_close.sum with hSdef
  have hS : 0 ≤ S := List.sum_nonneg (fun v hv => (hgood.2.1 v hv).le)
  have htot : 0 < S + U := add_pos_of_nonneg_of_pos hS hU
  refine ⟨_, simulate_default_eval final stake entry (ne_of_gt hmin) (ne_of_gt htot), ?_, ?_, ?_, ?_⟩
  · show 0 < U / (S + U) * 100
    exact mul_pos (div_pos hU htot) (by norm_num)
  · show U / (S + U) * 100 ≤ 100
    have h1 : U / (S + U) ≤ 1 := (div_le_one htot).mpr (by linarith)
    nlinarith
  · show U / (S + U) * 100 = 100 ↔ (simRun final stake entry 100).ghost_all_values = []
    constructor
    · intro h100
      have hdiv : U / (S + U) = 1 := by
        have h2 : U / (S + U) * 100 = 1 * 100 := by rw [h100]; norm_num
        exact mul_right_cancel₀ (by norm_num) h2
      have hUeq : U = S + U := (div_eq_one_iff_eq (ne_of_gt htot)).mp hdiv
      have hSzero : S = 0 := by linarith
      rcases lt_or_eq_of_le hf with hlt | heq
      · exfalso
        have hvne := (simRun_ne_nil final stake entry 100 hlt).1
        have h3 : 0 < (simRun final stake entry 100).all_buy_values_at_close.sum :=
          List.sum_pos _ hgood.2.1 hvne
        rw [← hSdef] at h3
        linarith
      · exact (simRun_id_nil final stake entry 100 (le_of_eq heq.symm)).2
    · intro hg
      have hfinal : final = 100000 := by
        by_contra hne
        exact (simRun_ne_nil final stake entry 100 (lt_of_le_of_ne hf (Ne.symm hne))).2 hg
      have hvals := (simRun_id_nil final stake entry 100 hfinal.le).1
      have hS0 : S = 0 := by rw [hSdef, hvals]; rfl
      rw [hS0, zero_add, div_self (ne_of_gt hU)]
      norm_num
  · show (simRun final stake entry 100).ghost_all_values = [] ↔ final = 100000
    constructor
    · intro hg
      by_contra hne
      exact (simRun_ne_nil final stake entry 100 (lt_of_le_of_ne hf (Ne.symm hne))).2 hg
    · intro hfinal
      exact (simRun_id_nil final stake entry 100 hfinal.le).2

/-- Witness for C5 at stake 100, entry cap 100 (scaled 100,000), final cap
at the baseline: the sole-participant case with sharePercent exactly 100. -/
theorem sharePercent_unit_interval_witness :
    ∃ r : SimResult, simulate_market_cap_growth 100000 100 100 100 = some r ∧
      0 < r.user_rewards_percentage ∧ r.user_rewards_percentage ≤ 100 ∧
      (r.user_rewards_percentage = 100 ↔ r.executed_buys = []) ∧
      (r.executed_buys = [] ↔ (100000 : ℝ) = 100000) :=
  sharePercent_unit_interval 100 100 100000 (by norm_num) (by norm_num) (by norm_num)

/- Counting lemmas for the iteration ceiling (claim C8). -/

theorem simStep_number (f a b c : ℝ) (st : SimState) :
    (simStep f a b c st).buy_number = st.buy_number + 1 := by
  unfold simStep
  split <;> rfl

theorem simStep_ghost_len (f a b c : ℝ) (st : SimState) :
    (simStep f a b c st).ghost_all_values.length = st.ghost_all_values.length + 1 := by
  unfold simStep
  split <;> simp

theorem simLoop_number_ghost (f a b c : ℝ) (n : ℕ) (st : SimState)
    (h : st.buy_number = st.ghost_all_values.length + 1) :
    (simLoop f a b c n st).buy_number = (simLoop f a b c n st).ghost_all_values.length + 1 := by
  induction n generalizing st with
  | zero => exact h
  | succ n ih =>
    rw [simLoop_succ]
    split
    · exact ih _ (by rw [simStep_number, simStep_ghost_len, h])
    · exact h

theorem simLoop_number_le (f a b c : ℝ) (n : ℕ) (st : SimState)
    (h : st.buy_number ≤ 10001) :
    (simLoop f a b c n st).buy_number ≤ 10001 := by
  induction n generalizing st with
  | zero => exact h
  | succ n ih =>
    rw [simLoop_succ]
    split
    · rename_i hc
      exact ih _ (by rw [simStep_number]; omega)
    · exact h

theorem simLoop_exit (f a b c : ℝ) (n : ℕ) (st : SimState)
    (h : 10002 ≤ st.buy_number + n) :
    ¬((simLoop f a b c n st).current_mc < f ∧ (simLoop f a b c n st).buy_number ≤ 10000) := by
  induction n generalizing st with
  | zero =>
    intro hc
    rw [simLoop_zero] at hc
    omega
  | succ n ih =>
    rw [simLoop_succ]
    split
    · exact ih _ (by rw [simStep_number]; omega)
    · rename_i hc
      exact hc

/-- C8: the simulation loop always terminates having executed at most
10,000 synthetic standard buys, and whenever it stops short of the target
final cap it has executed exactly 10,000 — the ceiling is enforced exactly
whether or not the simulated cap converges to `finalCap`. -/
theorem simLoop_buy_ceiling (final ubet ubmc ssize : ℝ) :
    (simRun final ubet ubmc ssize).ghost_all_values.length ≤ 10000 ∧
    ((simRun final ubet ubmc ssize).current_mc < final →
      (simRun final ubet ubmc ssize).ghost_all_values.length = 10000) := by
  have hinit1 : initSimState.buy_number = initSimState.ghost_all_values.length + 1 := rfl
  have hinit2 : initSimState.buy_number ≤ 10001 := by norm_num [initSimState]
  have hng := simLoop_number_ghost final (ubet * BET_POOL_PERCENTAGE)
    (ssize * BET_POOL_PERCENTAGE) (ubmc * 1000) 10001 initSimState hinit1
  have hle := simLoop_number_le final (ubet * BET_POOL_PERCENTAGE)
    (ssize * BET_POOL_PERCENTAGE) (ubmc * 1000) 10001 initSimState hinit2
  have hex := simLoop_exit final (ubet * BET_POOL_PERCENTAGE)
    (ssize * BET_POOL_PERCENTAGE) (ubmc * 1000) 10001 initSimState
    (by norm_num [initSimState])
  unfold simRun
  constructor
  · omega
  · intro hlt
    have hn : ¬((simLoop final (ubet * BET_POOL_PERCENTAGE) (ssize * BET_POOL_PERCENTAGE)
        (ubmc * 1000) 10001 initSimState).buy_number ≤ 10000) := by
      intro hnle
      exact hex ⟨hlt, hnle⟩
    omega

theorem simStep_mc_zero_buy (f a c : ℝ) (st : SimState) :
    (simStep f a 0 c st).current_mc = st.current_mc := by
  unfold simStep calculate_new_market_cap
  split <;> simp

theorem simLoop_mc_zero_buy (f a b c : ℝ) (hb : b = 0) (n : ℕ) (st : SimState) :
    (simLoop f a b c n st).current_mc = st.current_mc := by
  subst hb
  induction n generalizing st with
  | zero => rfl
  | succ n ih =>
    rw [simLoop_succ]
    split
    · rw [ih, simStep_mc_zero_buy]
    · rfl

/-- Witness for C8: with a zero standard buy size the simulated cap never
moves, the target 200,000 is never reached, and the loop executes exactly
its 10,000-buy ceiling. -/
theorem simLoop_buy_ceiling_witness :
    (simRun 200000 0 300 0).ghost_all_values.length = 10000 := by
  apply (simLoop_buy_ceiling 200000 0 300 0).2
  show (simRun 200000 0 300 0).current_mc < 200000
  unfold simRun
  rw [simLoop_mc_zero_buy 200000 (0 * BET_POOL_PERCENTAGE) (0 * BET_POOL_PERCENTAGE)
    (300 * 1000) (zero_mul BET_POOL_PERCENTAGE) 10001 initSimState]
  norm_num [initSimState, INITIAL_MC]

/- Toolkit for evaluating the loop on concrete inputs. -/

theorem simLoop_step_pos (f a b c : ℝ) (n : ℕ) (st : SimState)
    (h1 : st.current_mc < f) (h2 : st.buy_number ≤ 10000) :
    simLoop f a b c (n + 1) st = simLoop f a b c n (simStep f a b c st) := by
  rw [simLoop_succ, if_pos ⟨h1, h2⟩]

theorem simLoop_stop (f a b c : ℝ) (n : ℕ) (st : SimState) (h1 : ¬ st.current_mc < f) :
    simLoop f a b c (n + 1) st = st := by
  rw [simLoop_succ, if_neg (fun hc => h1 hc.1)]

theorem simStep_eval_trigger (f a b c : ℝ) (st : SimState)
    (hflag : st.user_buy_included = false) (hc : c ≤ st.current_mc) :
    simStep f a b c st =
      { current_mc := calculate_new_market_cap st.current_mc b,
        buy_number := st.buy_number + 1,
        user_buy_value_at_close := a * f / st.current_mc,
        user_buy_included := st.user_buy_included,
        all_buy_values_at_close := [b * f / st.current_mc],
        ghost_all_values := st.ghost_all_values ++ [b * f / st.current_mc] } := by
  unfold simStep
  rw [if_pos ⟨hflag, hc⟩]
  rfl

theorem simStep_eval_no_trigger (f a b c : ℝ) (st : SimState)
    (hc : ¬(st.user_buy_included = false ∧ c ≤ st.current_mc)) :
    simStep f a b c st =
      { current_mc := calculate_new_market_cap st.current_mc b,
        buy_number := st.buy_number + 1,
        user_buy_value_at_close := st.user_buy_value_at_close,
        user_buy_included := st.user_buy_included,
        all_buy_values_at_close := st.all_buy_values_at_close ++ [b * f / st.current_mc],
        ghost_all_values := st.ghost_all_values ++ [b * f / st.current_mc] } := by
  unfold simStep
  rw [if_neg hc]

/-- At the baseline cap the square root is 1, so a post-tax buy of `b`
raises the cap by exactly `20 b`. -/
theorem newmc_at_baseline (b : ℝ) : calculate_new_market_cap 100000 b = 100000 + b * 20 := by
  unfold calculate_new_market_cap
  rw [show (100000 : ℝ) / 100000 = 1 by norm_num, Real.sqrt_one]
  ring

/-- One standard post-tax buy of 95 from the cap 101,900 overshoots any
target below 103,800. -/
theorem newmc_second_step_ge : (103800 : ℝ) ≤ calculate_new_market_cap 101900 95 := by
  unfold calculate_new_market_cap
  have h1 : (1 : ℝ) ≤ Real.sqrt (101900 / 100000) := by
    have h2 := Real.sqrt_le_sqrt (show (1 : ℝ) ≤ 101900 / 100000 by norm_num)
    rwa [Real.sqrt_one] at h2
  nlinarith

/-- Full evaluation of the simulator at stake 100, entry cap 100 (scaled
100,000), final cap exactly at the baseline: no standard buy executes and
the user takes the whole pool. -/
theorem simulate_base_eval :
    simulate_market_cap_growth 100000 100 100 100 =
      some { total_sum_value := 95, user_buy_value_at_close := 95,
             user_rewards_percentage := 100, values_at_close := [95],
             executed_buys := [] } := by
  have hrun := simRun_no_loop 100000 100 100 100 (le_refl 100000)
  rw [simulate_default_eval 100000 100 100 (by norm_num [min_def])
    (by rw [hrun]; norm_num [initSimState, BPP_eq, min_def])]
  rw [hrun]
  norm_num [initSimState, BPP_eq, min_def]

/-- Full evaluation of `calculate_rewards` at stake 100, entry cap 100,
both final caps at the baseline, side 1 winning: the losing side has zero
available liquidity, the payout is the post-tax stake, and the profit
figure is minus the post-tax stake. -/
theorem calc_rewards_base_eval :
    calculate_rewards 100 100 100000 100000 1 =
      some { taxPaid := 5, userPostTaxBet := 95, userBuyValueAtClose := 95,
             userRewardsPercentage := 100, totalSumValue := 95,
             shareOfLosingTeamLiquidity := 0, estimatedSSBReward := 95,
             dollarIncrease := -95 } := by
  unfold calculate_rewards
  simp only [ite_self, simulate_base_eval]
  norm_num [availableliquidity, TAX_RATE, BPP_eq]

/-- C3 (amended): whenever the losing side's final cap is at or below the
baseline, every returned reward record has a zero dollar share of losing
liquidity and a payout of exactly the post-tax stake — but the profit
figure equals minus the post-tax stake, not zero, because the code
computes profit as dollarShare − postTaxStake. -/
theorem losing_cap_at_baseline_rewards (ubet ubmc t1 t2 : ℝ) (wid : ℤ) (r : RewardResult)
    (h1 : wid = 1 → t2 ≤ 100000) (h2 : wid ≠ 1 → t1 ≤ 100000)
    (hr : calculate_rewards ubet ubmc t1 t2 wid = some r) :
    r.shareOfLosingTeamLiquidity = 0 ∧ r.estimatedSSBReward = r.userPostTaxBet ∧
      r.dollarIncrease = -r.userPostTaxBet := by
  unfold calculate_rewards at hr
  split at hr
  · rename_i hw
    dsimp only at hr
    split at hr
    · exact Option.noConfusion hr
    · rename_i sim hsim
      injection hr with hr
      subst hr
      have hliq : availableliquidity t2 = 0 := by simp [availableliquidity, h1 hw]
      refine ⟨?_, ?_, ?_⟩ <;> simp [hliq]
  · rename_i hw
    dsimp only at hr
    split at hr
    · exact Option.noConfusion hr
    · rename_i sim hsim
      injection hr with hr
      subst hr
      have hliq : availableliquidity t1 = 0 := by simp [availableliquidity, h2 hw]
      refine ⟨?_, ?_, ?_⟩ <;> simp [hliq]

/-- Counterexample to C3 as stated: at stake 100, entry cap 100, both
final caps at the baseline and side 1 winning, the returned profit figure
is −95, which is neither zero nor non-negative. -/
theorem profit_negative_when_losing_at_baseline :
    (calculate_rewards 100 100 100000 100000 1).map RewardResult.dollarIncrease = some (-95) ∧
      (-95 : ℝ) ≠ 0 ∧ (-95 : ℝ) < 0 := by
  refine ⟨?_, by norm_num, by norm_num⟩
  rw [calc_rewards_base_eval]
  rfl

/-- Witness for C3's amended theorem at the concrete input of
`calc_rewards_base_eval`. -/
theorem losing_cap_at_baseline_rewards_witness :
    ({ taxPaid := 5, userPostTaxBet := 95, userBuyValueAtClose := 95,
       userRewardsPercentage := 100, totalSumValue := 95,
       shareOfLosingTeamLiquidity := 0, estimatedSSBReward := 95,
       dollarIncrease := -95 } : RewardResult).shareOfLosingTeamLiquidity = 0 ∧
    ({ taxPaid := 5, userPostTaxBet := 95, userBuyValueAtClose := 95,
       userRewardsPercentage := 100, totalSumValue := 95,
       shareOfLosingTeamLiquidity := 0, estimatedSSBReward := 95,
       dollarIncrease := -95 } : RewardResult).estimatedSSBReward =
      ({ taxPaid := 5, userPostTaxBet := 95, userBuyValueAtClose := 95,
         userRewardsPercentage := 100, totalSumValue := 95,
         shareOfLosingTeamLiquidity := 0, estimatedSSBReward := 95,
         dollarIncrease := -95 } : RewardResult).userPostTaxBet ∧
    ({ taxPaid := 5, userPostTaxBet := 95, userBuyValueAtClose := 95,
       userRewardsPercentage := 100, totalSumValue := 95,
       shareOfLosingTeamLiquidity := 0, estimatedSSBReward := 95,
       dollarIncrease := -95 } : RewardResult).dollarIncrease =
      -({ taxPaid := 5, userPostTaxBet := 95, userBuyValueAtClose := 95,
          userRewardsPercentage := 100, totalSumValue := 95,
          shareOfLosingTeamLiquidity := 0, estimatedSSBReward := 95,
          dollarIncrease := -95 } : RewardResult).userPostTaxBet :=
  losing_cap_at_baseline_rewards 100 100 100000 100000 1 _
    (fun _ => le_refl 100000) (fun _ => le_refl 100000) calc_rewards_base_eval

/-- A zero-stake user at entry cap 100 (scaled 100,000) with final cap
101,000: the loop executes exactly one standard buy and stops. -/
theorem simRun_c4a_eval :
    simRun 101000 0 100 100 =
      { current_mc := calculate_new_market_cap 100000 95, buy_number := 2,
        user_buy_value_at_close := 0, user_buy_included := false,
        all_buy_values_at_close := [95 * 101000 / 100000],
        ghost_all_values := [95 * 101000 / 100000] } := by
  unfold simRun
  rw [BPP_eq]
  rw [show (0 : ℝ) * 0.95 = 0 by norm_num, show (100 : ℝ) * 0.95 = 95 by norm_num,
    show (100 : ℝ) * 1000 = 100000 by norm_num]
  rw [show initSimState = (⟨100000, 1, 0, false, [], []⟩ : SimState) from rfl]
  rw [show (10001 : ℕ) = 10000 + 1 from rfl]
  rw [simLoop_step_pos 101000 0 95 100000 10000 _ (by norm_num) (by norm_num)]
  rw [simStep_eval_trigger 101000 0 95 100000 _ rfl (by norm_num)]
  rw [show (10000 : ℕ) = 9999 + 1 from rfl]
  rw [simLoop_stop 101000 0 95 100000 9999 _ (by norm_num [newmc_at_baseline])]
  norm_num

/-- Simulator output for a zero stake, entry cap 100, final cap 101,000:
the simulation runs normally and returns a zero share for the user. -/
theorem simulate_c4a_eval :
    simulate_market_cap_growth 101000 0 100 100 =
      some { total_sum_value := 95 * 101000 / 100000, user_buy_value_at_close := 0,
             user_rewards_percentage := 0,
             values_at_close := [95 * 101000 / 100000, 0],
             executed_buys := [95 * 101000 / 100000] } := by
  rw [simulate_default_eval 101000 0 100 (by norm_num [min_def])
    (by rw [simRun_c4a_eval]; norm_num [BPP_eq, min_def])]
  rw [simRun_c4a_eval]
  norm_num [BPP_eq, min_def]

/-- Simulator hit of the line 89 division by zero for a zero entry cap:
`min(0, 101000) = 0`. -/
theorem simulate_c4b_eval : simulate_market_cap_growth 101000 100 0 100 = none := by
  simp only [simulate_market_cap_growth]
  rw [if_pos]
  exact ⟨simRun_flag_false 101000 100 0 100, by rw [zero_mul]; exact min_eq_left (by norm_num)⟩

/-- Simulator output for a final cap 99,000 below the baseline: the loop
never runs and the user value is computed against the floor denominator. -/
theorem simulate_c4c_eval :
    simulate_market_cap_growth 99000 100 100 100 =
      some { total_sum_value := 95, user_buy_value_at_close := 95,
             user_rewards_percentage := 100, values_at_close := [95],
             executed_buys := [] } := by
  have hrun := simRun_no_loop 99000 100 100 100 (by norm_num)
  rw [simulate_default_eval 99000 100 100 (by norm_num [min_def])
    (by rw [hrun]; norm_num [initSimState, BPP_eq, min_def])]
  rw [hrun]
  norm_num [initSimState, BPP_eq, min_def]

/-- Counterexample to C4 as stated: a non-positive (zero) stake is not
rejected — `calculate_rewards` invokes the simulator and returns a normal
record whose totalValue is the simulator's sum, not an InvalidInput
error. -/
theorem invalid_stake_not_rejected :
    (calculate_rewards 0 100 101000 100000 1).map RewardResult.totalSumValue =
      some (95 * 101000 / 100000) := by
  unfold calculate_rewards
  norm_num [simulate_c4a_eval]

/-- C4 (amended): the code performs no input validation at all.  A
non-positive entry cap reaches the simulator and dies in a division by
zero (`none`) instead of a prior InvalidInput rejection, and a final cap
below the baseline is likewise processed normally, the simulator returning
a full record. -/
theorem no_input_validation :
    calculate_rewards 100 0 101000 100000 1 = none ∧
    (calculate_rewards 100 100 99000 100000 1).map RewardResult.totalSumValue = some 95 := by
  constructor
  · unfold calculate_rewards
    norm_num [simulate_c4b_eval]
  · unfold calculate_rewards
    norm_num [simulate_c4c_eval]

/-- Loop evaluation for C1's failing input: final cap 103,000, stake 100,
entry cap 0.001 (scaled to 1, so the entry condition of line 59 holds at
every step).  Two standard buys execute, and because the flag of line 55
is never set, line 62 clears the values list at the start of each of them:
only the second buy's value survives in `all_buy_values_at_close`. -/
theorem simRun_c1_eval :
    simRun 103000 100 0.001 100 =
      { current_mc := calculate_new_market_cap 101900 95, buy_number := 3,
        user_buy_value_at_close := 95 * 103000 / 101900, user_buy_included := false,
        all_buy_values_at_close := [95 * 103000 / 101900],
        ghost_all_values := [95 * 103000 / 100000, 95 * 103000 / 101900] } := by
  unfold simRun
  rw [BPP_eq]
  rw [show (100 : ℝ) * 0.95 = 95 by norm_num, show (0.001 : ℝ) * 1000 = 1 by norm_num]
  rw [show initSimState = (⟨100000, 1, 0, false, [], []⟩ : SimState) from rfl]
  rw [show (10001 : ℕ) = 10000 + 1 from rfl]
  rw [simLoop_step_pos 103000 95 95 1 10000 _ (by norm_num) (by norm_num)]
  rw [simStep_eval_trigger 103000 95 95 1 _ rfl (by norm_num)]
  rw [show (10000 : ℕ) = 9999 + 1 from rfl]
  rw [simLoop_step_pos 103000 95 95 1 9999 _ (by norm_num [newmc_at_baseline]) (by norm_num)]
  rw [simStep_eval_trigger 103000 95 95 1 _ rfl (by norm_num [newmc_at_baseline])]
  rw [show (9999 : ℕ) = 9998 + 1 from rfl]
  rw [simLoop_stop 103000 95 95 1 9998 _ (by
    have h := newmc_second_step_ge
    norm_num [newmc_at_baseline]
    linarith)]
  norm_num [newmc_at_baseline]

/-- Simulator output at C1's failing input.  The user's value at close is
the post-loop formula of line 89 with denominator `min(1, 103000) = 1`,
and the returned `total_sum_value` contains only the second standard buy's
value plus the user's — the first buy's 97.85 was cleared from the list. -/
theorem simulate_c1_eval :
    simulate_market_cap_growth 103000 100 0.001 100 =
      some { total_sum_value := 95 * 103000 / 101900 + 9785000,
             user_buy_value_at_close := 9785000,
             user_rewards_percentage :=
               9785000 / (95 * 103000 / 101900 + 9785000) * 100,
             values_at_close := [95 * 103000 / 101900, 9785000],
             executed_buys := [95 * 103000 / 100000, 95 * 103000 / 101900] } := by
  rw [simulate_default_eval 103000 100 0.001 (by norm_num [min_def])
    (by rw [simRun_c1_eval]; norm_num [BPP_eq, min_def])]
  rw [simRun_c1_eval]
  norm_num [BPP_eq, min_def]

/-- C1 fails on the code: at final cap 103,000, stake 100, entry cap
0.001, the returned totalValue omits the first executed standard buy's
value at close (97.85), because line 62 clears the accumulated list at
every step whose opening cap is at or above the entry value — the
`user_buy_included` flag of line 55 is never set to True.  The sum of all
executed buys plus the user's value differs from the returned total. -/
theorem totalValue_omits_cleared_buys :
    (simulate_market_cap_growth 103000 100 0.001 100).map SimResult.total_sum_value =
      some (95 * 103000 / 101900 + 9785000) ∧
    (simulate_market_cap_growth 103000 100 0.001 100).map SimResult.executed_buys =
      some [95 * 103000 / 100000, 95 * 103000 / 101900] ∧
    (simulate_market_cap_growth 103000 100 0.001 100).map SimResult.user_buy_value_at_close =
      some 9785000 ∧
    [(95 : ℝ) * 103000 / 100000, 95 * 103000 / 101900].sum + 9785000 ≠
      95 * 103000 / 101900 + 9785000 := by
  refine ⟨?_, ?_, ?_, ?_⟩
  · rw [simulate_c1_eval]; rfl
  · rw [simulate_c1_eval]; rfl
  · rw [simulate_c1_eval]; rfl
  · norm_num

/-- Loop evaluation for C2's failing input: final cap 103,000, stake 100,
entry cap 100.9 (scaled 100,900).  The first step's opening cap 100,000 is
below the entry value, the second step's opening cap 101,900 reaches it,
so lines 60-61 set the user's value against the opening cap 101,900. -/
theorem simRun_c2_eval :
    simRun 103000 100 100.9 100 =
      { current_mc := calculate_new_market_cap 101900 95, buy_number := 3,
        user_buy_value_at_close := 95 * 103000 / 101900, user_buy_included := false,
        all_buy_values_at_close := [95 * 103000 / 101900],
        ghost_all_values := [95 * 103000 / 100000, 95 * 103000 / 101900] } := by
  unfold simRun
  rw [BPP_eq]
  rw [show (100 : ℝ) * 0.95 = 95 by norm_num, show (100.9 : ℝ) * 1000 = 100900 by norm_num]
  rw [show initSimState = (⟨100000, 1, 0, false, [], []⟩ : SimState) from rfl]
  rw [show (10001 : ℕ) = 10000 + 1 from rfl]
  rw [simLoop_step_pos 103000 95 95 100900 10000 _ (by norm_num) (by norm_num)]
  rw [simStep_eval_no_trigger 103000 95 95 100900 _ (by norm_num)]
  rw [show (10000 : ℕ) = 9999 + 1 from rfl]
  rw [simLoop_step_pos 103000 95 95 100900 9999 _ (by norm_num [newmc_at_baseline]) (by norm_num)]
  rw [simStep_eval_trigger 103000 95 95 100900 _ rfl (by norm_num [newmc_at_baseline])]
  rw [show (9999 : ℕ) = 9998 + 1 from rfl]
  rw [simLoop_stop 103000 95 95 100900 9998 _ (by
    have h := newmc_second_step_ge
    norm_num [newmc_at_baseline]
    linarith)]
  norm_num [newmc_at_baseline]

/-- Simulator output at C2's failing input: although lines 60-61 set the
user's value against the first qualifying opening cap 101,900, the flag is
never set, so the post-loop branch of lines 87-89 overwrites it with the
`min(100900, 103000)` denominator formula. -/
theorem simulate_c2_eval :
    simulate_market_cap_growth 103000 100 100.9 100 =
      some { total_sum_value := 95 * 103000 / 101900 + 95 * 103000 / 100900,
             user_buy_value_at_close := 95 * 103000 / 100900,
             user_rewards_percentage :=
               95 * 103000 / 100900 / (95 * 103000 / 101900 + 95 * 103000 / 100900) * 100,
             values_at_close := [95 * 103000 / 101900, 95 * 103000 / 100900],
             executed_buys := [95 * 103000 / 100000, 95 * 103000 / 101900] } := by
  rw [simulate_default_eval 103000 100 100.9 (by norm_num [min_def])
    (by rw [simRun_c2_eval]; norm_num [BPP_eq, min_def])]
  rw [simRun_c2_eval]
  norm_num [BPP_eq, min_def]

/-- C2 fails on the code: at final cap 103,000, stake 100, entry cap
100.9 (scaled 100,900), the first loop step whose opening cap reaches the
entry value is the second one, opening at 101,900, so the claim demands
userValueAtClose = 95·103000/101900; but since `user_buy_included` is
never set, the code always falls into the post-loop branch and returns
95·103000/100900 instead. -/
theorem userValue_ignores_entry_step :
    (simulate_market_cap_growth 103000 100 100.9 100).map SimResult.user_buy_value_at_close =
      some (95 * 103000 / 100900) ∧
    (95 : ℝ) * 103000 / 100900 ≠ 95 * 103000 / 101900 := by
  refine ⟨?_, by norm_num⟩
  rw [simulate_c2_eval]
  rfl

/- Claim C9: processing bets never lowers any side's market cap. -/

theorem newmc_ge_self (c b : ℝ) (hb : 0 ≤ b) : c ≤ calculate_new_market_cap c b := by
  unfold calculate_new_market_cap
  have h : 0 ≤ b * (20 * Real.sqrt (c / 100000)) :=
    mul_nonneg hb (by positivity)
  linarith

theorem forall₂_le_refl (l : List ℝ) : List.Forall₂ (· ≤ ·) l l :=
  List.forall₂_same.mpr (fun x _ => le_refl x)

theorem eventCaps_refl (es : List EventS) :
    List.Forall₂ (List.Forall₂ (· ≤ ·)) (eventCaps es) (eventCaps es) :=
  List.forall₂_same.mpr (fun x _ => forall₂_le_refl x)

theorem update_first_forall₂ {α : Type} (p : α → Bool) (f : α → α) (R : α → α → Prop)
    (hrefl : ∀ x, R x x) (hf : ∀ x, R x (f x)) (l : List α) :
    List.Forall₂ R l (update_first p f l) := by
  induction l with
  | nil => exact List.Forall₂.nil
  | cons x xs ih =>
    unfold update_first
    split
    · exact List.Forall₂.cons (hf x) (List.forall₂_same.mpr fun y _ => hrefl y)
    · exact List.Forall₂.cons (hrefl x) ih

theorem forall₂_map_map {α β : Type} (g : α → β) (R : β → β → Prop) (l l2 : List α)
    (h : List.Forall₂ (fun a b => R (g a) (g b)) l l2) :
    List.Forall₂ R (l.map g) (l2.map g) := by
  induction h with
  | nil => exact List.Forall₂.nil
  | cons h1 h2 ih => exact List.Forall₂.cons h1 ih

theorem update_first_caps_le (tid : ℤ) (net : ℝ) (hnet : 0 ≤ net) (l : List TeamS) :
    List.Forall₂ (· ≤ ·) (l.map TeamS.market_cap)
      ((update_first (fun t => t.id == tid)
        (fun t => { t with market_cap := calculate_new_market_cap t.market_cap net })
        l).map TeamS.market_cap) := by
  apply forall₂_map_map
  exact update_first_forall₂ (fun t => t.id == tid)
    (fun t => { t with market_cap := calculate_new_market_cap t.market_cap net })
    (fun a b => a.market_cap ≤ b.market_cap)
    (fun x => le_refl x.market_cap) (fun x => newmc_ge_self x.market_cap net hnet) l

theorem process_caps_le (events : List EventS) (eid tid : ℤ) (amt tax net : ℝ)
    (hnet : 0 ≤ net) :
    List.Forall₂ (List.Forall₂ (· ≤ ·)) (eventCaps events)
      (eventCaps (process_bet_event events eid tid amt tax net)) := by
  unfold process_bet_event
  split
  · exact eventCaps_refl events
  split
  · exact eventCaps_refl events
  unfold eventCaps
  apply forall₂_map_map
  exact update_first_forall₂ (fun e => e.id == eid)
    (fun e => { e with
        teams := update_first (fun t => t.id == tid)
          (fun t => { t with market_cap := calculate_new_market_cap t.market_cap net }) e.teams,
        total_bet_amount := e.total_bet_amount + amt })
    (fun a b => List.Forall₂ (· ≤ ·) (a.teams.map TeamS.market_cap)
      (b.teams.map TeamS.market_cap))
    (fun e => forall₂_le_refl (e.teams.map TeamS.market_cap))
    (fun e => update_first_caps_le tid net hnet e.teams) events

theorem forall₂_le_trans {a b c : List ℝ}
    (h1 : List.Forall₂ (· ≤ ·) a b) (h2 : List.Forall₂ (· ≤ ·) b c) :
    List.Forall₂ (· ≤ ·) a c := by
  induction h1 generalizing c with
  | nil => cases h2; exact List.Forall₂.nil
  | cons hab h ih =>
    cases h2 with
    | cons hbc h2a => exact List.Forall₂.cons (le_trans hab hbc) (ih h2a)

theorem eventCaps_trans {a b c : List (List ℝ)}
    (h1 : List.Forall₂ (List.Forall₂ (· ≤ ·)) a b)
    (h2 : List.Forall₂ (List.Forall₂ (· ≤ ·)) b c) :
    List.Forall₂ (List.Forall₂ (· ≤ ·)) a c := by
  induction h1 generalizing c with
  | nil => cases h2; exact List.Forall₂.nil
  | cons hab h ih =>
    cases h2 with
    | cons hbc h2a => exact List.Forall₂.cons (forall₂_le_trans hab hbc) (ih h2a)

theorem update_first_mem {α : Type} (p : α → Bool) (f : α → α) (l : List α) :
    ∀ x ∈ update_first p f l, x ∈ l ∨ ∃ y, y ∈ l ∧ x = f y := by
  induction l with
  | nil => intro x hx; exact absurd hx (by simp [update_first])
  | cons a as ih =>
    intro x hx
    unfold update_first at hx
    split at hx
    · rcases List.mem_cons.mp hx with hx | hx
      · exact Or.inr ⟨a, List.mem_cons_self a as, hx⟩
      · exact Or.inl (List.mem_cons_of_mem a hx)
    · rcases List.mem_cons.mp hx with hx | hx
      · exact Or.inl (hx ▸ List.mem_cons_self a as)
      · rcases ih x hx with hx2 | ⟨y, hy, hyx⟩
        · exact Or.inl (List.mem_cons_of_mem a hx2)
        · exact Or.inr ⟨y, List.mem_cons_of_mem a hy, hyx⟩

theorem process_preserves_nonneg (events : List EventS) (eid tid : ℤ) (amt tax net : ℝ)
    (hnet : 0 ≤ net) (h : ∀ e ∈ events, ∀ t ∈ e.teams, 0 ≤ t.market_cap) :
    ∀ e ∈ process_bet_event events eid tid amt tax net, ∀ t ∈ e.teams, 0 ≤ t.market_cap := by
  unfold process_bet_event
  split
  · exact h
  split
  · exact h
  intro e he t ht
  rcases update_first_mem _ _ _ e he with he2 | ⟨y, hy, rfl⟩
  · exact h e he2 t ht
  · dsimp at ht
    rcases update_first_mem _ _ _ t ht with ht2 | ⟨z, hz, rfl⟩
    · exact h y hy t ht2
    · exact le_trans (h y hy z hz) (newmc_ge_self _ _ hnet)

theorem process_bets_caps_le (bets : List BetEv) (events : List EventS)
    (hb : ∀ b ∈ bets, 0 ≤ b.net_bet_amount)
    (h : ∀ e ∈ events, ∀ t ∈ e.teams, 0 ≤ t.market_cap) :
    List.Forall₂ (List.Forall₂ (· ≤ ·)) (eventCaps events)
      (eventCaps (process_bets events bets)) := by
  induction bets generalizing events with
  | nil => exact eventCaps_refl events
  | cons b bs ih =>
    have h1 := process_caps_le events b.event_id b.team_id b.amount b.tax_amount
      b.net_bet_amount (hb b (List.mem_cons_self b bs))
    have h2 := ih (process_bet_event events b.event_id b.team_id b.amount b.tax_amount
        b.net_bet_amount)
      (fun b2 hb2 => hb b2 (List.mem_cons_of_mem b hb2))
      (process_preserves_nonneg events b.event_id b.team_id b.amount b.tax_amount
        b.net_bet_amount (hb b (List.mem_cons_self b bs)) h)
    exact eventCaps_trans h1 h2

/-- C9: processing a bet event never lowers any side's market cap — with a
non-negative net bet amount and non-negative current caps, every team's
cap after `process_bet_event` is at least its cap before (pointwise over
the whole state), and hence caps are monotonically non-decreasing across
any sequence of processed bets. -/
theorem process_bet_event_cap_monotone :
    (∀ (events : List EventS) (eid tid : ℤ) (amt tax net : ℝ), 0 ≤ net →
        (∀ e ∈ events, ∀ t ∈ e.teams, 0 ≤ t.market_cap) →
        List.Forall₂ (List.Forall₂ (· ≤ ·)) (eventCaps events)
          (eventCaps (process_bet_event events eid tid amt tax net))) ∧
    (∀ (events : List EventS) (bets : List BetEv),
        (∀ b ∈ bets, 0 ≤ b.net_bet_amount) →
        (∀ e ∈ events, ∀ t ∈ e.teams, 0 ≤ t.market_cap) →
        List.Forall₂ (List.Forall₂ (· ≤ ·)) (eventCaps events)
          (eventCaps (process_bets events bets))) :=
  ⟨fun events eid tid amt tax net hnet _ => process_caps_le events eid tid amt tax net hnet,
   fun events bets hb h => process_bets_caps_le bets events hb h⟩

/-- Witness for C9 on a one-event, one-team state at the baseline cap with
a net bet of 95. -/
theorem process_bet_event_cap_monotone_witness :
    List.Forall₂ (List.Forall₂ (· ≤ ·))
      (eventCaps [⟨1, [⟨1, 100000⟩], 0⟩])
      (eventCaps (process_bet_event [⟨1, [⟨1, 100000⟩], 0⟩] 1 1 100 5 95)) :=
  process_bet_event_cap_monotone.1 [⟨1, [⟨1, 100000⟩], 0⟩] 1 1 100 5 95 (by norm_num)
    (by
      intro e he t ht
      rw [List.mem_singleton] at he
      subst he
      rw [show (⟨1, [⟨1, 100000⟩], 0⟩ : EventS).teams = [⟨1, 100000⟩] from rfl,
        List.mem_singleton] at ht
      subst ht
      norm_num)
